import Mathlib

/-!
Verification development for the device state synchronization and reliable
command delivery layer of the cleanroute backend.

The definitions below are a shallow embedding of the Python source:

* `backend/app/db.py` — command acknowledgment records, device shadows,
  bins, collection sessions, heartbeat staleness query;
* `backend/app/mqtt_commands.py` — command dispatch and the retry sweep;
* `backend/app/mqtt_ingest.py` — telemetry ingestion and message routing;
* `backend/app/api.py` — the zone collection-session endpoints.

Database tables are modelled as Lean lists of records, SQL `UPDATE ... WHERE`
as a `map` guarded on the key, SQL `INSERT` as an append, `NOW()` as an
explicit integer timestamp argument, and JSONB objects as association lists
over a small JSON value type.  Each operation is a pure function from the
modelled database state to the new state.
-/

namespace CleanRoute

/-- JSON-style values stored in JSONB columns (shadow states, payloads). -/
inductive JVal where
  | null : JVal
  | bool (b : Bool) : JVal
  | num (q : ℚ) : JVal
  | str (s : String) : JVal
deriving DecidableEq

/-- A JSONB object: an association list from keys to JSON values. -/
abbrev StateMap := List (String × JVal)

/-- First-match lookup in a JSONB object. -/
def lookupState : StateMap → String → Option JVal
  | [], _ => none
  | kv :: rest, k => if kv.1 = k then some kv.2 else lookupState rest k

/-- JSONB concatenation `a || b`: keys of `b` override keys of `a`
(entries of `b` first so that lookup prefers them). -/
def mergeState (old new : StateMap) : StateMap :=
  new ++ old.filter (fun kv => (lookupState new kv.1).isNone)

-- ──────────────────────────────────────────────────────────────────────────
-- Command ACK/Retry system (db.py: command_acknowledgments table)
-- ──────────────────────────────────────────────────────────────────────────

/-- Status values of the `status` column of `command_acknowledgments`. -/
inductive CmdStatus where
  | pending : CmdStatus
  | acknowledged : CmdStatus
  | failed : CmdStatus
deriving DecidableEq

/-- One row of the `command_acknowledgments` table. -/
structure CommandRec where
  command_id : String
  bin_id : String
  command_type : String
  payload : Option StateMap
  sent_at : Int
  ack_received_at : Option Int
  retry_count : Nat
  max_retries : Nat
  status : CmdStatus
  error_message : Option String
deriving DecidableEq

/-- The `command_acknowledgments` table (`command_id` is UNIQUE in SQL). -/
abbrev CmdDB := List CommandRec

/-- First row whose `command_id` matches (the UNIQUE key of the table). -/
def findCmd : CmdDB → String → Option CommandRec
  | [], _ => none
  | r :: rest, cid => if r.command_id = cid then some r else findCmd rest cid

/-- SQL `UPDATE command_acknowledgments SET ... WHERE command_id = cid`:
apply `f` to every row with the given id. -/
def updateCmd (db : CmdDB) (cid : String) (f : CommandRec → CommandRec) : CmdDB :=
  db.map fun r => if r.command_id = cid then f r else r

/-- Status of the row with the given command id, if any. -/
def statusOf (db : CmdDB) (cid : String) : Option CmdStatus :=
  (findCmd db cid).map (·.status)

/-- Retry count of the row with the given command id, if any. -/
def retryCountOf (db : CmdDB) (cid : String) : Option Nat :=
  (findCmd db cid).map (·.retry_count)

/-- Value of `ack_received_at` for the row with the given command id. -/
def ackTimeOf (db : CmdDB) (cid : String) : Option (Option Int) :=
  (findCmd db cid).map (·.ack_received_at)

/-- Row effect of db.acknowledge_command: `ack_received_at = NOW()`,
`status = (acknowledged if success else failed)`, `error_message = err`. -/
def ackRow (now : Int) (success : Bool) (err : Option String) (r : CommandRec) : CommandRec :=
  { r with
    ack_received_at := some now
    status := if success then CmdStatus.acknowledged else CmdStatus.failed
    error_message := err }

/-- db.acknowledge_command: applies the acknowledge row effect
unconditionally to any row with the given command id (no status guard). -/
def acknowledge_command (db : CmdDB) (now : Int) (command_id : String)
    (success : Bool) (error_message : Option String) : CmdDB :=
  updateCmd db command_id (ackRow now success error_message)

/-- db.create_pending_command: INSERT a row with the column defaults
`sent_at = NOW()`, `retry_count = 0`, `max_retries = 3`, `status = pending`. -/
def create_pending_command (db : CmdDB) (now : Int) (command_id bin_id command_type : String)
    (payload : Option StateMap) : CmdDB :=
  db ++ [{ command_id := command_id
           bin_id := bin_id
           command_type := command_type
           payload := payload
           sent_at := now
           ack_received_at := none
           retry_count := 0
           max_retries := 3
           status := CmdStatus.pending
           error_message := none }]

/-- db.get_pending_commands (no bin filter): rows with `status = pending`,
`sent_at < NOW() - older_than_seconds` and `retry_count < max_retries`. -/
def get_pending_commands (db : CmdDB) (now older_than_seconds : Int) : CmdDB :=
  db.filter fun r =>
    decide (r.status = CmdStatus.pending) &&
    decide (r.sent_at < now - older_than_seconds) &&
    decide (r.retry_count < r.max_retries)

/-- Row effect of db.increment_command_retry. -/
def incRow (now : Int) (r : CommandRec) : CommandRec :=
  { r with retry_count := r.retry_count + 1, sent_at := now }

/-- db.increment_command_retry: `retry_count = retry_count + 1, sent_at = NOW()`. -/
def increment_command_retry (db : CmdDB) (now : Int) (command_id : String) : CmdDB :=
  updateCmd db command_id (incRow now)

/-- Row effect of db.mark_command_failed. -/
def failRow (err : String) (r : CommandRec) : CommandRec :=
  { r with status := CmdStatus.failed, error_message := some err }

/-- db.mark_command_failed: `status = failed, error_message = err`,
unconditionally on any row with the given command id. -/
def mark_command_failed (db : CmdDB) (command_id : String) (err : String) : CmdDB :=
  updateCmd db command_id (failRow err)

/-- Body of the loop in mqtt_commands.retry_pending_commands, acting on one
command `cmd` read from the pending snapshot: exhausted commands are marked
failed, otherwise the command is re-published (outcome given by the oracle
`pubOk`) and on publish success the retry count is incremented. -/
def retrySweepStep (pubOk : String → Bool) (now : Int) (acc : CmdDB) (cmd : CommandRec) : CmdDB :=
  if cmd.max_retries ≤ cmd.retry_count then
    mark_command_failed acc cmd.command_id "Max retries exceeded"
  else if pubOk cmd.command_id then
    increment_command_retry acc now cmd.command_id
  else acc

/-- mqtt_commands.retry_pending_commands: reads the pending snapshot via
`get_pending_commands` and folds the per-command step over it. -/
def retry_pending_commands (pubOk : String → Bool) (db : CmdDB)
    (now max_age_seconds : Int) : CmdDB :=
  (get_pending_commands db now max_age_seconds).foldl (retrySweepStep pubOk now) db

/-- Result value of mqtt_commands.send_command_with_ack. -/
structure AckDispatchResult where
  command_id : String
  bin_id : String
  command_type : String
  sent : Bool
  awaiting_ack : Bool
deriving DecidableEq

/-- mqtt_commands.send_command_with_ack: persists a pending command record,
then publishes (outcome `publishOk`, as returned by send_command, which
catches its own exceptions) and reports `sent`/`awaiting_ack`.  Nothing is
done to the record when the publish fails. -/
def send_command_with_ack (publishOk : Bool) (db : CmdDB) (now : Int)
    (command_id bin_id command_type : String) (payload : Option StateMap) :
    CmdDB × AckDispatchResult :=
  let db2 := create_pending_command db now command_id bin_id command_type payload
  (db2, { command_id := command_id
          bin_id := bin_id
          command_type := command_type
          sent := publishOk
          awaiting_ack := publishOk })

/-- Operations that touch command-record status: inbound acknowledgments
(mqtt_ingest.handle_command_ack → db.acknowledge_command), the periodic retry
sweep, and its two db primitives taken individually. -/
inductive CmdOp where
  | ack (now : Int) (cid : String) (success : Bool) (err : Option String) : CmdOp
  | sweep (pubOk : String → Bool) (now older : Int) : CmdOp
  | retryInc (now : Int) (cid : String) : CmdOp
  | markFailed (cid : String) (err : String) : CmdOp

/-- Apply one command operation to the table. -/
def applyCmdOp (db : CmdDB) : CmdOp → CmdDB
  | CmdOp.ack now cid s e => acknowledge_command db now cid s e
  | CmdOp.sweep pubOk now older => retry_pending_commands pubOk db now older
  | CmdOp.retryInc now cid => increment_command_retry db now cid
  | CmdOp.markFailed cid err => mark_command_failed db cid err

/-- Apply a sequence of command operations, oldest first. -/
def applyCmdOps (db : CmdDB) (ops : List CmdOp) : CmdDB :=
  ops.foldl applyCmdOp db

-- ──────────────────────────────────────────────────────────────────────────
-- Device shadow store (db.py: device_shadow table)
-- ──────────────────────────────────────────────────────────────────────────

/-- One row of the `device_shadow` table (`bin_id` is the primary key). -/
structure DeviceShadow where
  reported_state : StateMap
  desired_state : StateMap
  last_reported_at : Option Int
  last_desired_at : Option Int
  version : Nat
deriving DecidableEq

/-- The `device_shadow` table, keyed by `bin_id`. -/
abbrev ShadowDB := List (String × DeviceShadow)

/-- Row with the given `bin_id` (the primary key of the table). -/
def findShadow : ShadowDB → String → Option DeviceShadow
  | [], _ => none
  | p :: rest, bin => if p.1 = bin then some p.2 else findShadow rest bin

/-- SQL `UPDATE device_shadow SET ... WHERE bin_id = bin`: apply `f` to
every row with the given key. -/
def updateShadow (db : ShadowDB) (bin : String) (f : DeviceShadow → DeviceShadow) : ShadowDB :=
  db.map fun p => if p.1 = bin then (p.1, f p.2) else p

/-- Conflict-branch row effect of db.update_device_shadow_reported. -/
def reportedRow (now : Int) (state : StateMap) (sh : DeviceShadow) : DeviceShadow :=
  { sh with
    reported_state := mergeState sh.reported_state state
    last_reported_at := some now
    version := sh.version + 1 }

/-- Conflict-branch row effect of db.update_device_shadow_desired. -/
def desiredRow (now : Int) (state : StateMap) (sh : DeviceShadow) : DeviceShadow :=
  { sh with
    desired_state := mergeState sh.desired_state state
    last_desired_at := some now
    version := sh.version + 1 }

/-- db.update_device_shadow_reported: INSERT a fresh shadow (version 1,
desired defaults to the empty object) or, on conflict, JSONB-merge into
`reported_state`, stamp `last_reported_at = NOW()` and bump `version`. -/
def update_device_shadow_reported (db : ShadowDB) (now : Int) (bin_id : String)
    (state : StateMap) : ShadowDB :=
  match findShadow db bin_id with
  | none =>
      db ++ [(bin_id,
        { reported_state := state
          desired_state := []
          last_reported_at := some now
          last_desired_at := none
          version := 1 })]
  | some _ => updateShadow db bin_id (reportedRow now state)

/-- db.update_device_shadow_desired: INSERT a fresh shadow (version 1,
reported defaults to the empty object) or, on conflict, JSONB-merge into
`desired_state`, stamp `last_desired_at = NOW()` and bump `version`. -/
def update_device_shadow_desired (db : ShadowDB) (now : Int) (bin_id : String)
    (state : StateMap) : ShadowDB :=
  match findShadow db bin_id with
  | none =>
      db ++ [(bin_id,
        { reported_state := []
          desired_state := state
          last_reported_at := none
          last_desired_at := some now
          version := 1 })]
  | some _ => updateShadow db bin_id (desiredRow now state)

/-- Loop body of db.get_device_shadow_delta: keep the desired entries whose
key is absent from the reported state or mapped to a different value there
(`key not in reported or reported[key] != value`, i.e. the reported lookup
is not exactly the desired value). -/
def shadowDeltaLoop (reported desired : StateMap) : StateMap :=
  desired.filter fun kv => !(decide (lookupState reported kv.1 = some kv.2))

/-- Return value of db.get_device_shadow_delta. -/
structure DeltaResult where
  bin_id : String
  delta : StateMap
  has_delta : Bool
  version : Nat
deriving DecidableEq

/-- db.get_device_shadow_delta: `None` when there is no shadow, otherwise the
delta computed from the stored reported and desired states. -/
def get_device_shadow_delta (db : ShadowDB) (bin_id : String) : Option DeltaResult :=
  match findShadow db bin_id with
  | none => none
  | some sh =>
      some { bin_id := bin_id
             delta := shadowDeltaLoop sh.reported_state sh.desired_state
             has_delta := !(shadowDeltaLoop sh.reported_state sh.desired_state).isEmpty
             version := sh.version }

-- ──────────────────────────────────────────────────────────────────────────
-- Telemetry ingestion (mqtt_ingest.py and the bin operations of db.py)
-- ──────────────────────────────────────────────────────────────────────────

/-- One row of the `bins` table (the columns touched by ingestion and the
staleness query).  The column default of `device_status` for a fresh
telemetry INSERT is not in the repository sources; `offline` is used here,
matching db.register_device, and the telemetry handler immediately
overwrites it with `online` in every path that inserts. -/
structure BinRec where
  bin_id : String
  lat : Option ℚ
  lon : Option ℚ
  last_seen : Option Int
  last_emptied : Option Int
  sleep_mode : Bool
  device_status : String
deriving DecidableEq

/-- One row of the `telemetry` table. -/
structure TelemetryRow where
  ts : Int
  bin_id : String
  fill_pct : ℚ
  batt_v : Option ℚ
  temp_c : Option ℚ
  emptied : Bool
  lat : Option ℚ
  lon : Option ℚ
deriving DecidableEq

/-- One row of the `power_profiles` table (the columns ingestion writes). -/
structure PowerRow where
  bin_id : String
  batt_v : ℚ
deriving DecidableEq

/-- The persisted state touched by the ingest listener. -/
structure IngestDB where
  bins : List BinRec
  telemetry : List TelemetryRow
  power : List PowerRow
  shadows : ShadowDB
deriving DecidableEq

/-- Row of `bins` with the given `bin_id` (the primary key). -/
def findBin : List BinRec → String → Option BinRec
  | [], _ => none
  | b :: rest, bin => if b.bin_id = bin then some b else findBin rest bin

/-- SQL `UPDATE bins SET ... WHERE bin_id = bin`: apply `f` to every row
with the given key. -/
def updateBinRows (l : List BinRec) (bin : String) (f : BinRec → BinRec) : List BinRec :=
  l.map fun b => if b.bin_id = bin then f b else b

/-- Conflict-branch row effect of db.upsert_bin: overwrite `lat`, `lon`,
`last_seen` and force `sleep_mode = FALSE`. -/
def upsertRow (lat lon : Option ℚ) (last_seen : Int) (b : BinRec) : BinRec :=
  { b with lat := lat, lon := lon, last_seen := some last_seen,
           sleep_mode := false }

/-- db.upsert_bin: INSERT the bin with `sleep_mode = FALSE` or, on conflict,
overwrite `lat`, `lon`, `last_seen` and force `sleep_mode = FALSE`. -/
def upsert_bin (db : IngestDB) (bin_id : String) (lat lon : Option ℚ)
    (last_seen : Int) : IngestDB :=
  match findBin db.bins bin_id with
  | some _ =>
      { db with bins := updateBinRows db.bins bin_id (upsertRow lat lon last_seen) }
  | none =>
      { db with bins := db.bins ++
          [{ bin_id := bin_id, lat := lat, lon := lon,
             last_seen := some last_seen, last_emptied := none,
             sleep_mode := false, device_status := "offline" }] }

/-- db.update_device_status: `UPDATE bins SET device_status = s WHERE bin_id`. -/
def update_device_status (db : IngestDB) (bin_id status : String) : IngestDB :=
  { db with bins := updateBinRows db.bins bin_id (fun b => { b with device_status := status }) }

/-- db.update_bin_emptied: `UPDATE bins SET last_emptied = t WHERE bin_id`. -/
def update_bin_emptied (db : IngestDB) (bin_id : String) (t : Int) : IngestDB :=
  { db with bins := updateBinRows db.bins bin_id (fun b => { b with last_emptied := some t }) }

/-- db.insert_telemetry: append one telemetry row. -/
def insert_telemetry (db : IngestDB) (row : TelemetryRow) : IngestDB :=
  { db with telemetry := db.telemetry ++ [row] }

/-- db.record_power_reading: append one power-profile row. -/
def record_power_reading (db : IngestDB) (bin_id : String) (batt_v : ℚ) : IngestDB :=
  { db with power := db.power ++ [⟨bin_id, batt_v⟩] }

/-- Outcome of running the external timestamp parser over the `ts` field. -/
inductive TsVal where
  | unparsable : TsVal
  | parsed (t : Int) : TsVal
deriving DecidableEq

/-- Fields of an inbound telemetry JSON payload as read by the handler,
with `none` for an absent key. -/
structure TelemetryPayload where
  ts : Option TsVal
  fill_pct : Option ℚ
  batt_v : Option ℚ
  temp_c : Option ℚ
  emptied : Bool
  lat : Option ℚ
  lon : Option ℚ
deriving DecidableEq

/-- JSON encoding of an optional number (`None` is serialized as null). -/
def optNum : Option ℚ → JVal
  | none => JVal.null
  | some q => JVal.num q

/-- Shadow state document built by mqtt_ingest.handle_telemetry. -/
def telemetryShadowState (p : TelemetryPayload) (fill : ℚ) (t : Int) : StateMap :=
  [("fill_pct", JVal.num fill),
   ("batt_v", optNum p.batt_v),
   ("temp_c", optNum p.temp_c),
   ("lat", optNum p.lat),
   ("lon", optNum p.lon),
   ("last_telemetry", JVal.str (toString t))]

/-- mqtt_ingest.handle_telemetry: validate `ts` presence, `fill_pct`
presence, the `[0, 100]` range and timestamp parsability, dropping the
message (state unchanged, a warning is logged) on any failure; otherwise
upsert the bin, set its status online, record the emptied flag, insert the
telemetry row, record a power reading when `batt_v` is truthy, and merge the
reported shadow state.  `now` is the wall clock used for `NOW()`. -/
def handle_telemetry (db : IngestDB) (now : Int) (bin_id : String)
    (p : TelemetryPayload) : IngestDB :=
  match p.ts with
  | none => db
  | some tsv =>
    match p.fill_pct with
    | none => db
    | some fill =>
      if 0 ≤ fill ∧ fill ≤ 100 then
        match tsv with
        | TsVal.unparsable => db
        | TsVal.parsed t =>
          let db1 := upsert_bin db bin_id p.lat p.lon t
          let db2 := update_device_status db1 bin_id "online"
          let db3 := if p.emptied then update_bin_emptied db2 bin_id t else db2
          let db4 := insert_telemetry db3
            { ts := t, bin_id := bin_id, fill_pct := fill, batt_v := p.batt_v,
              temp_c := p.temp_c, emptied := p.emptied, lat := p.lat, lon := p.lon }
          let db5 := match p.batt_v with
            | some v => if v ≠ 0 then record_power_reading db4 bin_id v else db4
            | none => db4
          { db5 with shadows :=
              (update_device_shadow_reported db5.shadows now bin_id
                (telemetryShadowState p fill t)) }
      else db

/-- Telemetry payload rejected by one of the validation guards of
handle_telemetry: `ts` missing or unparsable, `fill_pct` missing, or
`fill_pct` outside the range `[0, 100]`. -/
def telemetryMalformed (p : TelemetryPayload) : Bool :=
  match p.ts with
  | none => true
  | some tsv =>
    match p.fill_pct with
    | none => true
    | some fill =>
      if 0 ≤ fill ∧ fill ≤ 100 then
        match tsv with
        | TsVal.unparsable => true
        | TsVal.parsed _ => false
      else true

/-- Inbound messages reaching mqtt_ingest.on_message: a payload that fails
JSON decoding (the listener catches the decode error and drops it), or a
decoded telemetry message. -/
inductive InMsg where
  | malformedJson (topic : String) : InMsg
  | telemetry (now : Int) (bin_id : String) (p : TelemetryPayload) : InMsg

/-- mqtt_ingest.on_message, restricted to the telemetry route: invalid JSON
is dropped, telemetry goes to handle_telemetry.  Every exception is caught,
so message processing is a total state transformer. -/
def on_message (db : IngestDB) : InMsg → IngestDB
  | InMsg.malformedJson _ => db
  | InMsg.telemetry now bin p => handle_telemetry db now bin p

/-- Listener loop: process a stream of inbound messages in order. -/
def processMessages (db : IngestDB) (msgs : List InMsg) : IngestDB :=
  msgs.foldl on_message db

/-- Message dropped by the listener: undecodable JSON or failed validation. -/
def msgMalformed : InMsg → Bool
  | InMsg.malformedJson _ => true
  | InMsg.telemetry _ _ p => telemetryMalformed p

/-- Filter of db.get_devices_needing_heartbeat: `sleep_mode = FALSE AND
(last_seen < threshold OR last_seen IS NULL) AND device_status != offline`. -/
def needsHeartbeat (threshold : Int) (b : BinRec) : Bool :=
  !b.sleep_mode &&
  (match b.last_seen with
   | none => true
   | some t => decide (t < threshold)) &&
  !(decide (b.device_status = "offline"))

/-- db.get_devices_needing_heartbeat, with the computed cutoff
`NOW() - timeout_minutes` passed in as `threshold`. -/
def get_devices_needing_heartbeat (db : IngestDB) (threshold : Int) : List BinRec :=
  db.bins.filter (needsHeartbeat threshold)

-- ──────────────────────────────────────────────────────────────────────────
-- Collection sessions (db.py collection_sessions + api.py zone endpoints)
-- ──────────────────────────────────────────────────────────────────────────

/-- Values of the `status` column of `collection_sessions`. -/
inductive SessPhase where
  | started : SessPhase
  | checked : SessPhase
  | finished : SessPhase
  | ended : SessPhase
deriving DecidableEq

/-- Position of a phase along the documented chain
started, checked, finished, ended. -/
def phaseIdx : SessPhase → Nat
  | SessPhase.started => 0
  | SessPhase.checked => 1
  | SessPhase.finished => 2
  | SessPhase.ended => 3

/-- One row of the `collection_sessions` table. -/
structure Session where
  id : Nat
  zone_id : String
  status : SessPhase
  started_at : Int
  checked_at : Option Int
  finished_at : Option Int
  ended_at : Option Int
  bins_total : Nat
  bins_responded : Nat
  bins_collected : Nat
deriving DecidableEq

/-- The `collection_sessions` table with its SERIAL id counter.  Rows are
appended in creation order, so list order coincides with `started_at` order. -/
structure SessionDB where
  sessions : List Session
  next_id : Nat
deriving DecidableEq

/-- Row with the given SERIAL id. -/
def findSession : List Session → Nat → Option Session
  | [], _ => none
  | s :: rest, sid => if s.id = sid then some s else findSession rest sid

/-- db.get_active_collection_session: the most recently started session of
the zone whose status is not `ended` (`ORDER BY started_at DESC LIMIT 1`,
i.e. the last matching row in insertion order). -/
def get_active_collection_session (db : SessionDB) (zone : String) : Option Session :=
  db.sessions.reverse.find? fun s =>
    decide (s.zone_id = zone) && !(decide (s.status = SessPhase.ended))

/-- db.start_collection_session: INSERT a row with status `started`. -/
def start_collection_session (db : SessionDB) (now : Int) (zone : String)
    (bins_total : Nat) : SessionDB :=
  { sessions := db.sessions ++
      [{ id := db.next_id, zone_id := zone, status := SessPhase.started,
         started_at := now, checked_at := none, finished_at := none,
         ended_at := none, bins_total := bins_total, bins_responded := 0,
         bins_collected := 0 }]
    next_id := db.next_id + 1 }

/-- Row effect of db.update_collection_session_status: set `status`
unconditionally, stamp the timestamp matching the new status, and set
whichever of `bins_responded` / `bins_collected` were passed. -/
def sessionRow (now : Int) (status : SessPhase) (bins_responded bins_collected : Option Nat)
    (s : Session) : Session :=
  let s1 := { s with status := status }
  let s2 := match status with
    | SessPhase.checked => { s1 with checked_at := some now }
    | SessPhase.finished => { s1 with finished_at := some now }
    | SessPhase.ended => { s1 with ended_at := some now }
    | SessPhase.started => s1
  let s3 := match bins_responded with
    | some n => { s2 with bins_responded := n }
    | none => s2
  match bins_collected with
  | some n => { s3 with bins_collected := n }
  | none => s3

/-- db.update_collection_session_status: apply the row effect to the row
with the given SERIAL id (the UPDATE has no status guard). -/
def update_collection_session_status (db : SessionDB) (now : Int) (sid : Nat)
    (status : SessPhase) (bins_responded bins_collected : Option Nat) : SessionDB :=
  { db with sessions := db.sessions.map fun s =>
      if s.id = sid then sessionRow now status bins_responded bins_collected s else s }

/-- api.start_zone_collection: reject when the zone already has an active
session (no row created); reject when the zone resolves to no bins
(`hasBins = false`, the 404 path); otherwise create a `started` session. -/
def start_zone_collection (db : SessionDB) (now : Int) (zone : String)
    (hasBins : Bool) (bins_total : Nat) : SessionDB :=
  match get_active_collection_session db zone with
  | some _ => db
  | none => if hasBins then start_collection_session db now zone bins_total else db

/-- api.check_zone_collection: when the zone has an active session, set it to
`checked` with the freshly computed `bins_responded` count. -/
def check_zone_collection (db : SessionDB) (now : Int) (zone : String)
    (responded : Nat) : SessionDB :=
  match get_active_collection_session db zone with
  | some s => update_collection_session_status db now s.id SessPhase.checked (some responded) none
  | none => db

/-- api.finish_zone_collection: when the zone has an active session, set it
to `finished` with the recomputed responded and collected counts. -/
def finish_zone_collection (db : SessionDB) (now : Int) (zone : String)
    (responded collected : Nat) : SessionDB :=
  match get_active_collection_session db zone with
  | some s => update_collection_session_status db now s.id SessPhase.finished (some responded) (some collected)
  | none => db

/-- api.end_zone_collection: when the zone has an active session, set it to
`ended`. -/
def end_zone_collection (db : SessionDB) (now : Int) (zone : String) : SessionDB :=
  match get_active_collection_session db zone with
  | some s => update_collection_session_status db now s.id SessPhase.ended none none
  | none => db

/-- The four admin collection endpoints, with the values the handlers derive
from bins and zone membership (`hasBins`, responded and collected counts)
passed in as arguments. -/
inductive SessOp where
  | start (now : Int) (zone : String) (hasBins : Bool) (bins_total : Nat) : SessOp
  | check (now : Int) (zone : String) (responded : Nat) : SessOp
  | finish (now : Int) (zone : String) (responded collected : Nat) : SessOp
  | close (now : Int) (zone : String) : SessOp
deriving DecidableEq

/-- Apply one endpoint call to the session table. -/
def applySessOp (db : SessionDB) : SessOp → SessionDB
  | SessOp.start now zone hasBins total => start_zone_collection db now zone hasBins total
  | SessOp.check now zone responded => check_zone_collection db now zone responded
  | SessOp.finish now zone responded collected => finish_zone_collection db now zone responded collected
  | SessOp.close now zone => end_zone_collection db now zone

/-- Apply a sequence of endpoint calls, oldest first. -/
def applySessOps (db : SessionDB) (ops : List SessOp) : SessionDB :=
  ops.foldl applySessOp db

/-- Wellformedness of the session table: SERIAL ids are distinct and below
the counter.  This holds for every table reachable from the empty one. -/
def SessWF (db : SessionDB) : Prop :=
  (db.sessions.map Session.id).Nodup ∧ ∀ s ∈ db.sessions, s.id < db.next_id

-- ──────────────────────────────────────────────────────────────────────────
-- Helper lemmas on the command table
-- ──────────────────────────────────────────────────────────────────────────

lemma findCmd_eq_some_id {db : CmdDB} {k : String} {r : CommandRec}
    (h : findCmd db k = some r) : r.command_id = k := by
  induction db with
  | nil => simp [findCmd] at h
  | cons a rest ih =>
    by_cases ha : a.command_id = k
    · simp [findCmd, ha] at h; rw [← h]; exact ha
    · simp [findCmd, ha] at h; exact ih h

lemma findCmd_mem {db : CmdDB} {k : String} {r : CommandRec}
    (h : findCmd db k = some r) : r ∈ db := by
  induction db with
  | nil => simp [findCmd] at h
  | cons a rest ih =>
    by_cases ha : a.command_id = k
    · simp [findCmd, ha] at h; simp [← h]
    · simp [findCmd, ha] at h; exact List.mem_cons_of_mem a (ih h)

lemma findCmd_updateCmd (db : CmdDB) (cid k : String) (f : CommandRec → CommandRec)
    (hf : ∀ r, (f r).command_id = r.command_id) :
    findCmd (updateCmd db cid f) k =
      (findCmd db k).map (fun r => if r.command_id = cid then f r else r) := by
  induction db with
  | nil => rfl
  | cons r rest ih =>
    simp only [updateCmd, List.map_cons, findCmd] at ih ⊢
    by_cases h1 : r.command_id = cid
    · rw [if_pos h1, hf r]
      by_cases h2 : r.command_id = k
      · rw [if_pos h2, if_pos h2]; simp [h1]
      · rw [if_neg h2, if_neg h2, ih]
    · rw [if_neg h1]
      by_cases h2 : r.command_id = k
      · rw [if_pos h2, if_pos h2]; simp [h1]
      · rw [if_neg h2, if_neg h2, ih]

lemma findCmd_append_none {db : CmdDB} (tail : CmdDB) {k : String}
    (h : findCmd db k = none) : findCmd (db ++ tail) k = findCmd tail k := by
  induction db with
  | nil => rfl
  | cons a rest ih =>
    by_cases ha : a.command_id = k
    · simp [findCmd, ha] at h
    · simp only [findCmd, ha, if_false, List.cons_append] at h ⊢
      exact ih h

lemma statusOf_updateCmd_ne_pending {db : CmdDB} {k : String} (cid : String)
    (f : CommandRec → CommandRec)
    (hf : ∀ r, (f r).command_id = r.command_id)
    (hp : ∀ r, (f r).status = CmdStatus.pending → r.status = CmdStatus.pending)
    (h : statusOf db k ≠ some CmdStatus.pending) :
    statusOf (updateCmd db cid f) k ≠ some CmdStatus.pending := by
  unfold statusOf at h ⊢
  rw [findCmd_updateCmd db cid k f hf]
  intro hcon
  apply h
  cases hfind : findCmd db k with
  | none => rw [hfind] at hcon; simp at hcon
  | some r =>
    rw [hfind] at hcon
    simp only [Option.map, Option.some.injEq] at hcon ⊢
    by_cases hc : r.command_id = cid
    · rw [if_pos hc] at hcon; exact hp r hcon
    · rw [if_neg hc] at hcon; exact hcon

lemma statusOf_ack_ne_pending {db : CmdDB} {k : String} (now : Int) (cid : String)
    (s : Bool) (e : Option String)
    (h : statusOf db k ≠ some CmdStatus.pending) :
    statusOf (acknowledge_command db now cid s e) k ≠ some CmdStatus.pending :=
  statusOf_updateCmd_ne_pending cid (ackRow now s e) (fun _ => rfl)
    (fun r hr => absurd hr (by cases s <;> simp [ackRow])) h

lemma statusOf_mark_ne_pending {db : CmdDB} {k : String} (cid : String) (err : String)
    (h : statusOf db k ≠ some CmdStatus.pending) :
    statusOf (mark_command_failed db cid err) k ≠ some CmdStatus.pending :=
  statusOf_updateCmd_ne_pending cid (failRow err) (fun _ => rfl)
    (fun r hr => absurd hr (by simp [failRow])) h

lemma statusOf_inc_ne_pending {db : CmdDB} {k : String} (now : Int) (cid : String)
    (h : statusOf db k ≠ some CmdStatus.pending) :
    statusOf (increment_command_retry db now cid) k ≠ some CmdStatus.pending :=
  statusOf_updateCmd_ne_pending cid (incRow now) (fun _ => rfl) (fun _ hr => hr) h

lemma statusOf_sweepStep_ne_pending {acc : CmdDB} {k : String}
    (pubOk : String → Bool) (now : Int) (cmd : CommandRec)
    (h : statusOf acc k ≠ some CmdStatus.pending) :
    statusOf (retrySweepStep pubOk now acc cmd) k ≠ some CmdStatus.pending := by
  unfold retrySweepStep
  split_ifs with h1 h2
  · exact statusOf_mark_ne_pending _ _ h
  · exact statusOf_inc_ne_pending _ _ h
  · exact h

lemma statusOf_sweepFold_ne_pending {k : String} (pubOk : String → Bool) (now : Int)
    (snapshot : List CommandRec) (acc : CmdDB)
    (h : statusOf acc k ≠ some CmdStatus.pending) :
    statusOf (snapshot.foldl (retrySweepStep pubOk now) acc) k ≠ some CmdStatus.pending := by
  induction snapshot generalizing acc with
  | nil => exact h
  | cons c cs ih =>
    exact ih _ (statusOf_sweepStep_ne_pending pubOk now c h)

lemma statusOf_applyCmdOp_ne_pending {db : CmdDB} {k : String} (op : CmdOp)
    (h : statusOf db k ≠ some CmdStatus.pending) :
    statusOf (applyCmdOp db op) k ≠ some CmdStatus.pending := by
  cases op with
  | ack now cid s e => exact statusOf_ack_ne_pending now cid s e h
  | sweep pubOk now older =>
    exact statusOf_sweepFold_ne_pending pubOk now _ db h
  | retryInc now cid => exact statusOf_inc_ne_pending now cid h
  | markFailed cid err => exact statusOf_mark_ne_pending cid err h

-- ──────────────────────────────────────────────────────────────────────────
-- Concrete command rows used to exercise the theorems
-- ──────────────────────────────────────────────────────────────────────────

/-- One freshly dispatched `wake_up` command awaiting acknowledgment. -/
def oneCmdDB : CmdDB :=
  [{ command_id := "c1", bin_id := "B001", command_type := "wake_up",
     payload := none, sent_at := 0, ack_received_at := none, retry_count := 0,
     max_retries := 3, status := CmdStatus.pending, error_message := none }]

/-- A table holding one already-acknowledged command. -/
def ackedCmdDB : CmdDB :=
  [{ command_id := "c1", bin_id := "B001", command_type := "wake_up",
     payload := none, sent_at := 0, ack_received_at := some 1, retry_count := 0,
     max_retries := 3, status := CmdStatus.acknowledged, error_message := none }]

-- ──────────────────────────────────────────────────────────────────────────
-- C1
-- ──────────────────────────────────────────────────────────────────────────

/-- C1 counterexample: the claim that no sequence of acknowledge/retry/sweep
operations ever moves an `acknowledged` record to `failed` is false.
db.acknowledge_command has no status guard, so after a success ack puts the
record at `acknowledged`, a duplicate ack with `success = false` moves the
very same record to `failed`. -/
theorem ack_failure_overrides_acknowledged :
    statusOf (acknowledge_command oneCmdDB 1 "c1" true none) "c1" =
      some CmdStatus.acknowledged
    ∧ statusOf
        (acknowledge_command (acknowledge_command oneCmdDB 1 "c1" true none)
          2 "c1" false (some "device reported failure")) "c1" =
      some CmdStatus.failed := by
  constructor <;> rfl

/-- C1 (amended): under every sequence of acknowledge, sweep, retry-increment
and mark-failed operations, a command record whose status is terminal
(`acknowledged` or `failed`) never returns to `pending`; the unconditional
acknowledge update may however flip a terminal record between the two
terminal states in either direction. -/
theorem command_status_never_reverts_to_pending (db : CmdDB) (ops : List CmdOp)
    (cid : String) (h : statusOf db cid ≠ some CmdStatus.pending) :
    statusOf (applyCmdOps db ops) cid ≠ some CmdStatus.pending := by
  induction ops generalizing db with
  | nil => exact h
  | cons op rest ih =>
    exact ih (applyCmdOp db op) (statusOf_applyCmdOp_ne_pending op h)

/-- C1 witness: the never-reverts property instantiated on a concrete
acknowledged record hit by a failure ack followed by a sweep. -/
theorem command_status_never_reverts_to_pending_witness :
    statusOf ackedCmdDB "c1" ≠ some CmdStatus.pending
    ∧ statusOf
        (applyCmdOps ackedCmdDB
          [CmdOp.ack 5 "c1" false none, CmdOp.sweep (fun _ => true) 50 30]) "c1" ≠
      some CmdStatus.pending :=
  ⟨by decide,
   command_status_never_reverts_to_pending ackedCmdDB
     [CmdOp.ack 5 "c1" false none, CmdOp.sweep (fun _ => true) 50 30] "c1" (by decide)⟩

-- ──────────────────────────────────────────────────────────────────────────
-- C2
-- ──────────────────────────────────────────────────────────────────────────

/-- C2 counterexample: acknowledging the same command twice with identical
arguments does not leave every field equal to its value after the first
application: the second call re-stamps `ack_received_at = NOW()`, so the
field moves from the time of the first ack to the time of the second. -/
theorem acknowledge_twice_restamps_ack_time :
    ackTimeOf (acknowledge_command oneCmdDB 1 "c1" true none) "c1" = some (some 1)
    ∧ ackTimeOf
        (acknowledge_command (acknowledge_command oneCmdDB 1 "c1" true none)
          2 "c1" true none) "c1" = some (some 2) := by
  constructor <;> rfl

lemma updateCmd_updateCmd (db : CmdDB) (cid : String) (f g : CommandRec → CommandRec)
    (hf : ∀ r, (f r).command_id = r.command_id) :
    updateCmd (updateCmd db cid f) cid g = updateCmd db cid (fun r => g (f r)) := by
  induction db with
  | nil => rfl
  | cons r rest ih =>
    simp only [updateCmd, List.map_cons, List.map] at ih ⊢
    by_cases h1 : r.command_id = cid
    · simp [h1, hf r, ih]
    · simp [h1, ih]

/-- C2 (amended): acknowledging the same command id a second time with the
same success flag and error message leaves `status` and `error_message`
exactly as after the first acknowledgment, and the whole table equals the
one produced by a single acknowledgment at the second time — in particular
`ack_received_at` is overwritten with the later clock value. -/
theorem acknowledge_twice_amended (db : CmdDB) (t1 t2 : Int) (cid : String)
    (s : Bool) (e : Option String) :
    statusOf (acknowledge_command (acknowledge_command db t1 cid s e) t2 cid s e) cid =
      statusOf (acknowledge_command db t1 cid s e) cid
    ∧ (findCmd (acknowledge_command (acknowledge_command db t1 cid s e) t2 cid s e) cid).map
        (·.error_message) =
      (findCmd (acknowledge_command db t1 cid s e) cid).map (·.error_message)
    ∧ acknowledge_command (acknowledge_command db t1 cid s e) t2 cid s e =
      acknowledge_command db t2 cid s e := by
  have hcollapse :
      acknowledge_command (acknowledge_command db t1 cid s e) t2 cid s e =
        acknowledge_command db t2 cid s e := by
    unfold acknowledge_command
    rw [updateCmd_updateCmd db cid (ackRow t1 s e) (ackRow t2 s e) (fun _ => rfl)]
    have hpt : (fun r => ackRow t2 s e (ackRow t1 s e r)) = ackRow t2 s e :=
      funext fun r => rfl
    rw [hpt]
  refine ⟨?_, ?_, hcollapse⟩
  · rw [hcollapse]
    unfold statusOf acknowledge_command
    rw [findCmd_updateCmd db cid cid (ackRow t2 s e) (fun _ => rfl),
        findCmd_updateCmd db cid cid (ackRow t1 s e) (fun _ => rfl)]
    cases hfind : findCmd db cid with
    | none => rfl
    | some r => simp [findCmd_eq_some_id hfind, ackRow]
  · rw [hcollapse]
    unfold acknowledge_command
    rw [findCmd_updateCmd db cid cid (ackRow t2 s e) (fun _ => rfl),
        findCmd_updateCmd db cid cid (ackRow t1 s e) (fun _ => rfl)]
    cases hfind : findCmd db cid with
    | none => rfl
    | some r => simp [findCmd_eq_some_id hfind, ackRow]

-- ──────────────────────────────────────────────────────────────────────────
-- C3
-- ──────────────────────────────────────────────────────────────────────────

/-- C3: the pending sweep query returns exactly the stored rows that are
`pending`, older than the cutoff and below their retry budget; consequently
it never returns a terminal (`acknowledged` or `failed`) row nor one with
`retry_count ≥ max_retries`. -/
theorem get_pending_commands_characterization (db : CmdDB) (now older : Int) :
    (∀ r : CommandRec, r ∈ get_pending_commands db now older ↔
      (r ∈ db ∧ r.status = CmdStatus.pending ∧ r.sent_at < now - older ∧
        r.retry_count < r.max_retries))
    ∧ ∀ r ∈ get_pending_commands db now older,
        r.status ≠ CmdStatus.acknowledged ∧ r.status ≠ CmdStatus.failed ∧
        ¬ r.max_retries ≤ r.retry_count := by
  have hmem : ∀ r : CommandRec, r ∈ get_pending_commands db now older ↔
      (r ∈ db ∧ r.status = CmdStatus.pending ∧ r.sent_at < now - older ∧
        r.retry_count < r.max_retries) := by
    intro r
    unfold get_pending_commands
    simp [List.mem_filter, and_assoc]
  refine ⟨hmem, ?_⟩
  intro r hr
  obtain ⟨-, hst, -, hlt⟩ := (hmem r).mp hr
  refine ⟨?_, ?_, ?_⟩
  · rw [hst]; intro hcon; exact CmdStatus.noConfusion hcon
  · rw [hst]; intro hcon; exact CmdStatus.noConfusion hcon
  · omega

/-- C3 witness: the characterization applied to a concrete overdue pending
row, which the sweep query indeed returns. -/
theorem get_pending_commands_characterization_witness :
    (oneCmdDB.head?.isSome = true)
    ∧ ∀ r ∈ get_pending_commands oneCmdDB 100 30,
        r.status ≠ CmdStatus.acknowledged ∧ r.status ≠ CmdStatus.failed ∧
        ¬ r.max_retries ≤ r.retry_count :=
  ⟨by decide, (get_pending_commands_characterization oneCmdDB 100 30).2⟩

-- ──────────────────────────────────────────────────────────────────────────
-- C4
-- ──────────────────────────────────────────────────────────────────────────

/-- Table after dispatching a `wake_up` command (max_retries defaults to 3)
at time 0 with acknowledgment expected. -/
def c4dispatched : CmdDB :=
  (send_command_with_ack true [] 0 "c4" "B001" "wake_up" none).1

/-- One periodic retry sweep at the given time (60 second cutoff, every
publish succeeding, and no ack ever arriving). -/
def c4sweepAt (db : CmdDB) (now : Int) : CmdDB :=
  retry_pending_commands (fun _ => true) db now 60

/-- Table after four sweeps, each at least 60 seconds after the previous
re-send. -/
def c4afterSweeps : CmdDB :=
  c4sweepAt (c4sweepAt (c4sweepAt (c4sweepAt c4dispatched 100) 200) 300) 400

/-- C4: evaluation at the claimed scenario.  After the retry budget is used
up the record is still `pending` with `retry_count = 3`, and every further
sweep leaves the table unchanged — it is never transitioned to `failed`.
The mark-failed branch of mqtt_commands.retry_pending_commands is
unreachable, because db.get_pending_commands already filters out rows with
`retry_count ≥ max_retries`. -/
theorem wake_up_retry_exhaustion_never_fails :
    statusOf c4afterSweeps "c4" = some CmdStatus.pending
    ∧ retryCountOf c4afterSweeps "c4" = some 3
    ∧ c4sweepAt c4afterSweeps 500 = c4afterSweeps
    ∧ statusOf c4afterSweeps "c4" ≠ some CmdStatus.failed := by
  refine ⟨rfl, rfl, rfl, by decide⟩

-- ──────────────────────────────────────────────────────────────────────────
-- C5
-- ──────────────────────────────────────────────────────────────────────────

/-- C5 counterexample: when the publish fails, send_command_with_ack returns
`sent = false` while the freshly persisted record still has status
`pending` — it is not marked `failed`, contradicting the claim that no
pending record remains after a failed dispatch. -/
theorem publish_failure_leaves_pending_record :
    (send_command_with_ack false [] 0 "c5" "B001" "wake_up" none).2.sent = false
    ∧ statusOf (send_command_with_ack false [] 0 "c5" "B001" "wake_up" none).1 "c5" =
      some CmdStatus.pending := by
  constructor <;> rfl

/-- C5 (amended): dispatching with acknowledgment expected always persists a
record with `status = pending` and `retry_count = 0` for the fresh command
id, and reports `sent` equal to the publish outcome; on a publish failure
the record remains `pending` (to be driven by the periodic retry sweep)
rather than being marked `failed`. -/
theorem send_command_with_ack_amended (publishOk : Bool) (db : CmdDB) (now : Int)
    (cid bin ctype : String) (payload : Option StateMap)
    (hfresh : findCmd db cid = none) :
    (send_command_with_ack publishOk db now cid bin ctype payload).2.sent = publishOk
    ∧ statusOf (send_command_with_ack publishOk db now cid bin ctype payload).1 cid =
      some CmdStatus.pending
    ∧ retryCountOf (send_command_with_ack publishOk db now cid bin ctype payload).1 cid =
      some 0 := by
  refine ⟨rfl, ?_, ?_⟩
  · unfold statusOf send_command_with_ack create_pending_command
    rw [findCmd_append_none _ hfresh]
    simp [findCmd]
  · unfold retryCountOf send_command_with_ack create_pending_command
    rw [findCmd_append_none _ hfresh]
    simp [findCmd]

-- ──────────────────────────────────────────────────────────────────────────
-- Helper lemmas on the shadow table
-- ──────────────────────────────────────────────────────────────────────────

lemma findShadow_updateShadow (db : ShadowDB) (bin k : String)
    (f : DeviceShadow → DeviceShadow) :
    findShadow (updateShadow db bin f) k =
      (findShadow db k).map (fun sh => if k = bin then f sh else sh) := by
  induction db with
  | nil => rfl
  | cons p rest ih =>
    obtain ⟨a, sh⟩ := p
    simp only [updateShadow, List.map_cons, findShadow] at ih ⊢
    by_cases h1 : a = bin
    · by_cases h2 : a = k
      · subst h2
        simp [findShadow, h1]
      · have hbk : ¬ bin = k := h1 ▸ h2
        simp [findShadow, h1, h2, hbk, ih]
    · by_cases h2 : a = k
      · subst h2
        simp [findShadow, h1]
      · simp [findShadow, h1, h2, ih]

-- ──────────────────────────────────────────────────────────────────────────
-- C6
-- ──────────────────────────────────────────────────────────────────────────

/-- Shadow table after the specified scenario: the device reports
`fill_pct = 42`, then the desired state `fill_pct = 42, sleep = true` is
set. -/
def c6scenario : ShadowDB :=
  update_device_shadow_desired
    (update_device_shadow_reported [] 10 "B010" [("fill_pct", JVal.num 42)])
    20 "B010" [("fill_pct", JVal.num 42), ("sleep", JVal.bool true)]

/-- C6: the computed delta is empty exactly when every desired key is
present in the reported state with an equal value; in general it contains
exactly the desired entries whose key is absent from or differs in the
reported state; and in the concrete scenario (report `fill_pct = 42`, then
desire `fill_pct = 42, sleep = true`) the delta is exactly `sleep = true`. -/
theorem shadow_delta_characterization :
    (∀ reported desired : StateMap,
       shadowDeltaLoop reported desired = [] ↔
         ∀ kv ∈ desired, lookupState reported kv.1 = some kv.2)
    ∧ (∀ (reported desired : StateMap) (kv : String × JVal),
       kv ∈ shadowDeltaLoop reported desired ↔
         (kv ∈ desired ∧ lookupState reported kv.1 ≠ some kv.2))
    ∧ (get_device_shadow_delta c6scenario "B010").map DeltaResult.delta =
        some [("sleep", JVal.bool true)] := by
  have hmem : ∀ (reported desired : StateMap) (kv : String × JVal),
      kv ∈ shadowDeltaLoop reported desired ↔
        (kv ∈ desired ∧ lookupState reported kv.1 ≠ some kv.2) := by
    intro reported desired kv
    unfold shadowDeltaLoop
    rw [List.mem_filter]
    simp
  refine ⟨?_, hmem, by decide⟩
  intro reported desired
  constructor
  · intro h kv hkv
    by_contra hne
    have : kv ∈ shadowDeltaLoop reported desired :=
      (hmem reported desired kv).mpr ⟨hkv, hne⟩
    rw [h] at this
    simp at this
  · intro h
    by_contra hne
    cases hd : shadowDeltaLoop reported desired with
    | nil => exact hne hd
    | cons kv rest =>
      have : kv ∈ shadowDeltaLoop reported desired := by rw [hd]; exact List.mem_cons_self kv rest
      obtain ⟨hkv, hbad⟩ := (hmem reported desired kv).mp this
      exact hbad (h kv hkv)

/-- C6 witness: the empty-delta characterization applied to a concrete
matching shadow. -/
theorem shadow_delta_characterization_witness :
    shadowDeltaLoop [("fill_pct", JVal.num 42)] [("fill_pct", JVal.num 42)] = [] :=
  (shadow_delta_characterization.1 [("fill_pct", JVal.num 42)]
    [("fill_pct", JVal.num 42)]).mpr (by decide)

-- ──────────────────────────────────────────────────────────────────────────
-- C7
-- ──────────────────────────────────────────────────────────────────────────

/-- C7: on an existing shadow, updating the desired state merges only into
`desired_state`, stamps `last_desired_at`, bumps `version` by exactly one
and leaves `reported_state` and `last_reported_at` untouched; symmetrically,
reporting state merges only into `reported_state`, stamps
`last_reported_at`, bumps `version` by one and leaves `desired_state` and
`last_desired_at` untouched. -/
theorem shadow_update_frame (db : ShadowDB) (now : Int) (bin : String)
    (st : StateMap) (sh : DeviceShadow) (h : findShadow db bin = some sh) :
    findShadow (update_device_shadow_desired db now bin st) bin =
      some { sh with desired_state := mergeState sh.desired_state st,
                     last_desired_at := some now,
                     version := sh.version + 1 }
    ∧ findShadow (update_device_shadow_reported db now bin st) bin =
      some { sh with reported_state := mergeState sh.reported_state st,
                     last_reported_at := some now,
                     version := sh.version + 1 } := by
  constructor
  · unfold update_device_shadow_desired
    rw [h, findShadow_updateShadow db bin bin (desiredRow now st), h]
    simp [desiredRow]
  · unfold update_device_shadow_reported
    rw [h, findShadow_updateShadow db bin bin (reportedRow now st), h]
    simp [reportedRow]

/-- Shadow row used to instantiate the frame theorem. -/
def c7sh : DeviceShadow :=
  { reported_state := [("fill_pct", JVal.num 42)]
    desired_state := []
    last_reported_at := some 10
    last_desired_at := none
    version := 1 }

/-- Shadow table with one existing row used to instantiate the frame
theorem. -/
def c7db : ShadowDB := [("B010", c7sh)]

/-- C7 witness: the frame theorem instantiated on a concrete shadow row. -/
theorem shadow_update_frame_witness :
    findShadow c7db "B010" = some c7sh
    ∧ findShadow (update_device_shadow_desired c7db 20 "B010" [("sleep", JVal.bool true)]) "B010" =
      some { c7sh with desired_state := mergeState c7sh.desired_state [("sleep", JVal.bool true)],
                       last_desired_at := some 20, version := c7sh.version + 1 } :=
  ⟨by decide,
   (shadow_update_frame c7db 20 "B010" [("sleep", JVal.bool true)] c7sh (by decide)).1⟩

/-- C5 witness: the amended statement at a failing publish over an empty
table. -/
theorem send_command_with_ack_amended_witness :
    findCmd ([] : CmdDB) "c5" = none
    ∧ ((send_command_with_ack false [] 0 "c5" "B001" "wake_up" none).2.sent = false
      ∧ statusOf (send_command_with_ack false [] 0 "c5" "B001" "wake_up" none).1 "c5" =
        some CmdStatus.pending
      ∧ retryCountOf (send_command_with_ack false [] 0 "c5" "B001" "wake_up" none).1 "c5" =
        some 0) :=
  ⟨rfl, send_command_with_ack_amended false [] 0 "c5" "B001" "wake_up" none rfl⟩

-- ──────────────────────────────────────────────────────────────────────────
-- C8
-- ──────────────────────────────────────────────────────────────────────────

lemma handle_telemetry_of_malformed (db : IngestDB) (now : Int) (bin : String)
    (p : TelemetryPayload) (h : telemetryMalformed p = true) :
    handle_telemetry db now bin p = db := by
  cases hts : p.ts with
  | none => simp [handle_telemetry, hts]
  | some tsv =>
    cases hf : p.fill_pct with
    | none => simp [handle_telemetry, hts, hf]
    | some fill =>
      by_cases hr : 0 ≤ fill ∧ fill ≤ 100
      · cases tsv with
        | unparsable => simp [handle_telemetry, hts, hf, hr]
        | parsed t =>
          exfalso
          simp [telemetryMalformed, hts, hf, hr] at h
      · simp [handle_telemetry, hts, hf, hr]

/-- C8: malformed inbound telemetry is dropped without any persisted effect:
a payload failing validation (`ts` missing or unparsable, `fill_pct` missing
or outside `[0, 100]`) leaves the whole ingest state unchanged, a payload
that is not valid JSON likewise, and processing a message stream equals
processing the stream with all malformed messages removed — other messages
are unaffected. -/
theorem malformed_messages_dropped :
    (∀ (db : IngestDB) (now : Int) (bin : String) (p : TelemetryPayload),
       telemetryMalformed p = true → handle_telemetry db now bin p = db)
    ∧ (∀ (db : IngestDB) (topic : String),
       on_message db (InMsg.malformedJson topic) = db)
    ∧ (∀ (db : IngestDB) (msgs : List InMsg),
       processMessages db msgs = processMessages db (msgs.filter fun m => !msgMalformed m)) := by
  refine ⟨handle_telemetry_of_malformed, fun db topic => rfl, ?_⟩
  intro db msgs
  induction msgs generalizing db with
  | nil => rfl
  | cons m rest ih =>
    have hstep : processMessages db (m :: rest) = processMessages (on_message db m) rest := rfl
    cases hm : msgMalformed m with
    | true =>
      have hdrop : on_message db m = db := by
        cases m with
        | malformedJson topic => rfl
        | telemetry now bin p =>
          exact handle_telemetry_of_malformed db now bin p (by simpa [msgMalformed] using hm)
      have hfil : (m :: rest).filter (fun x => !msgMalformed x) =
          rest.filter (fun x => !msgMalformed x) := by
        simp [List.filter_cons, hm]
      rw [hstep, hdrop, hfil]
      exact ih db
    | false =>
      have hfil : (m :: rest).filter (fun x => !msgMalformed x) =
          m :: rest.filter (fun x => !msgMalformed x) := by
        simp [List.filter_cons, hm]
      rw [hstep, hfil]
      exact ih (on_message db m)

/-- Empty ingest state used by the witnesses. -/
def emptyIngestDB : IngestDB :=
  { bins := [], telemetry := [], power := [], shadows := [] }

/-- Telemetry payload with an out-of-range fill percentage. -/
def c8badPayload : TelemetryPayload :=
  { ts := some (TsVal.parsed 0), fill_pct := some 150, batt_v := none,
    temp_c := none, emptied := false, lat := none, lon := none }

/-- C8 witness: an out-of-range payload is dropped with no state change. -/
theorem malformed_messages_dropped_witness :
    telemetryMalformed c8badPayload = true
    ∧ handle_telemetry emptyIngestDB 5 "B001" c8badPayload = emptyIngestDB :=
  ⟨by decide, malformed_messages_dropped.1 emptyIngestDB 5 "B001" c8badPayload (by decide)⟩

-- ──────────────────────────────────────────────────────────────────────────
-- Helper lemmas on the bins table
-- ──────────────────────────────────────────────────────────────────────────

lemma findBin_eq_some_id {l : List BinRec} {k : String} {b : BinRec}
    (h : findBin l k = some b) : b.bin_id = k := by
  induction l with
  | nil => simp [findBin] at h
  | cons a rest ih =>
    by_cases ha : a.bin_id = k
    · simp [findBin, ha] at h; rw [← h]; exact ha
    · simp [findBin, ha] at h; exact ih h

lemma findBin_mem {l : List BinRec} {k : String} {b : BinRec}
    (h : findBin l k = some b) : b ∈ l := by
  induction l with
  | nil => simp [findBin] at h
  | cons a rest ih =>
    by_cases ha : a.bin_id = k
    · simp [findBin, ha] at h; simp [← h]
    · simp [findBin, ha] at h; exact List.mem_cons_of_mem a (ih h)

lemma findBin_updateBinRows (l : List BinRec) (bin k : String) (f : BinRec → BinRec)
    (hf : ∀ b, (f b).bin_id = b.bin_id) :
    findBin (updateBinRows l bin f) k =
      (findBin l k).map (fun b => if b.bin_id = bin then f b else b) := by
  induction l with
  | nil => rfl
  | cons b rest ih =>
    simp only [updateBinRows, List.map_cons, findBin] at ih ⊢
    by_cases h1 : b.bin_id = bin
    · rw [if_pos h1, hf b]
      by_cases h2 : b.bin_id = k
      · rw [if_pos h2, if_pos h2]; simp [h1]
      · rw [if_neg h2, if_neg h2, ih]
    · rw [if_neg h1]
      by_cases h2 : b.bin_id = k
      · rw [if_pos h2, if_pos h2]; simp [h1]
      · rw [if_neg h2, if_neg h2, ih]

lemma findBin_append_none {l : List BinRec} (tail : List BinRec) {k : String}
    (h : findBin l k = none) : findBin (l ++ tail) k = findBin tail k := by
  induction l with
  | nil => rfl
  | cons a rest ih =>
    by_cases ha : a.bin_id = k
    · simp [findBin, ha] at h
    · simp only [findBin, ha, if_false, List.cons_append] at h ⊢
      exact ih h

lemma findBin_upsert (db : IngestDB) (bin : String) (lat lon : Option ℚ) (t : Int) :
    ∃ b : BinRec, findBin (upsert_bin db bin lat lon t).bins bin = some b
      ∧ b.bin_id = bin ∧ b.sleep_mode = false ∧ b.last_seen = some t := by
  unfold upsert_bin
  cases hfind : findBin db.bins bin with
  | none =>
    refine ⟨{ bin_id := bin, lat := lat, lon := lon, last_seen := some t,
              last_emptied := none, sleep_mode := false, device_status := "offline" },
      ?_, rfl, rfl, rfl⟩
    show findBin (db.bins ++ [_]) bin = _
    rw [findBin_append_none _ hfind]
    simp [findBin]
  | some b0 =>
    refine ⟨upsertRow lat lon t b0, ?_, ?_, rfl, rfl⟩
    · show findBin (updateBinRows db.bins bin (upsertRow lat lon t)) bin = _
      rw [findBin_updateBinRows db.bins bin bin (upsertRow lat lon t) (fun _ => rfl), hfind]
      simp [findBin_eq_some_id hfind]
    · have hb0 := findBin_eq_some_id hfind
      exact hb0

lemma needing_heartbeat_iff {db : IngestDB} {thr t : Int} {bin : String} {b : BinRec}
    (hfind : findBin db.bins bin = some b)
    (hs : b.sleep_mode = false) (hst : b.device_status = "online")
    (hl : b.last_seen = some t) :
    b ∈ get_devices_needing_heartbeat db thr ↔ t < thr := by
  unfold get_devices_needing_heartbeat
  constructor
  · intro hmem
    have h2 := (List.mem_filter.mp hmem).2
    simp [needsHeartbeat, hs, hst, hl] at h2
    exact h2
  · intro hlt
    exact List.mem_filter.mpr
      ⟨findBin_mem hfind, by simp [needsHeartbeat, hs, hst, hl, hlt]⟩

-- ──────────────────────────────────────────────────────────────────────────
-- C10
-- ──────────────────────────────────────────────────────────────────────────

/-- C10: every successfully ingested telemetry message forces the bin record
to `sleep_mode = FALSE` (whatever it was before, e.g. set by a sleep command
or a zone-wide sleep), sets `device_status = online` and
`last_seen` to the reported timestamp; consequently the device is a member
of the staleness query result exactly when its new `last_seen` is older than
the cutoff — the `sleep_mode = FALSE` filter no longer exempts it. -/
theorem telemetry_forces_awake (db : IngestDB) (now t threshold : Int) (bin : String)
    (p : TelemetryPayload) (fill : ℚ)
    (hts : p.ts = some (TsVal.parsed t)) (hf : p.fill_pct = some fill)
    (h0 : 0 ≤ fill) (h100 : fill ≤ 100) :
    ∃ b : BinRec,
      findBin (handle_telemetry db now bin p).bins bin = some b
      ∧ b.sleep_mode = false
      ∧ b.device_status = "online"
      ∧ b.last_seen = some t
      ∧ (b ∈ get_devices_needing_heartbeat (handle_telemetry db now bin p) threshold ↔
          t < threshold) := by
  obtain ⟨b1, hb1, hid1, hs1, hl1⟩ := findBin_upsert db bin p.lat p.lon t
  have hbins : (handle_telemetry db now bin p).bins =
      (if p.emptied then
        update_bin_emptied
          (update_device_status (upsert_bin db bin p.lat p.lon t) bin "online") bin t
      else
        update_device_status (upsert_bin db bin p.lat p.lon t) bin "online").bins := by
    simp only [handle_telemetry, hts, hf]
    rw [if_pos ⟨h0, h100⟩]
    cases hb : p.batt_v with
    | none =>
      cases he : p.emptied <;>
        simp [insert_telemetry, record_power_reading, he]
    | some v =>
      by_cases hv : v ≠ 0 <;> cases he : p.emptied <;>
        simp [insert_telemetry, record_power_reading, he, hv]
  have hb2 : findBin (update_device_status (upsert_bin db bin p.lat p.lon t) bin "online").bins bin =
      some { b1 with device_status := "online" } := by
    show findBin (updateBinRows (upsert_bin db bin p.lat p.lon t).bins bin
      (fun b => { b with device_status := "online" })) bin = _
    rw [findBin_updateBinRows _ bin bin (fun b => { b with device_status := "online" })
      (fun _ => rfl), hb1]
    simp [hid1]
  cases he : p.emptied with
  | false =>
    have hfind2 : findBin (handle_telemetry db now bin p).bins bin =
        some { b1 with device_status := "online" } := by
      rw [hbins, he]; simpa using hb2
    exact ⟨{ b1 with device_status := "online" }, hfind2, hs1, rfl, hl1,
      needing_heartbeat_iff hfind2 hs1 rfl hl1⟩
  | true =>
    have hb3 : findBin (update_bin_emptied
        (update_device_status (upsert_bin db bin p.lat p.lon t) bin "online") bin t).bins bin =
        some { b1 with device_status := "online", last_emptied := some t } := by
      show findBin (updateBinRows _ bin (fun b => { b with last_emptied := some t })) bin = _
      rw [findBin_updateBinRows _ bin bin (fun b => { b with last_emptied := some t })
        (fun _ => rfl), hb2]
      simp [hid1]
    have hfind3 : findBin (handle_telemetry db now bin p).bins bin =
        some { b1 with device_status := "online", last_emptied := some t } := by
      rw [hbins, he]; simpa using hb3
    exact ⟨{ b1 with device_status := "online", last_emptied := some t }, hfind3, hs1, rfl, hl1,
      needing_heartbeat_iff hfind3 hs1 rfl hl1⟩

/-- Ingest state holding one sleeping, offline bin. -/
def sleepingBinDB : IngestDB :=
  { bins := [{ bin_id := "B001", lat := none, lon := none, last_seen := some 0,
               last_emptied := none, sleep_mode := true, device_status := "offline" }]
    telemetry := [], power := [], shadows := [] }

/-- Valid telemetry payload used by the C10 witness. -/
def c10payload : TelemetryPayload :=
  { ts := some (TsVal.parsed 50), fill_pct := some 42, batt_v := none,
    temp_c := none, emptied := false, lat := none, lon := none }

/-- C10 witness: a sleeping device that reports telemetry has a bin record
with `sleep_mode = FALSE`, status online and fresh `last_seen`, and is again
subject to staleness detection. -/
theorem telemetry_forces_awake_witness :
    c10payload.ts = some (TsVal.parsed 50)
    ∧ (∃ b : BinRec,
        findBin (handle_telemetry sleepingBinDB 60 "B001" c10payload).bins "B001" = some b
        ∧ b.sleep_mode = false
        ∧ b.device_status = "online"
        ∧ b.last_seen = some 50
        ∧ (b ∈ get_devices_needing_heartbeat
              (handle_telemetry sleepingBinDB 60 "B001" c10payload) 100 ↔ (50:Int) < 100)) :=
  ⟨rfl, telemetry_forces_awake sleepingBinDB 60 50 100 "B001" c10payload 42 rfl rfl
    (by norm_num) (by norm_num)⟩

-- ──────────────────────────────────────────────────────────────────────────
-- Helper lemmas on the session table
-- ──────────────────────────────────────────────────────────────────────────

lemma sessionRow_id (now : Int) (st : SessPhase) (br bc : Option Nat) (s : Session) :
    (sessionRow now st br bc s).id = s.id := by
  cases st <;> cases br <;> cases bc <;> rfl

lemma nodup_append_singleton {α : Type} (l : List α) (a : α) (h : l.Nodup)
    (ha : a ∉ l) : (l ++ [a]).Nodup := by
  rw [List.nodup_append]
  refine ⟨h, List.nodup_singleton a, ?_⟩
  intro x hx hxa
  simp only [List.mem_singleton] at hxa
  subst hxa
  exact ha hx

lemma findSession_of_mem_nodup {l : List Session} {s : Session}
    (hnd : (l.map Session.id).Nodup) (hmem : s ∈ l) : findSession l s.id = some s := by
  induction l with
  | nil => simp at hmem
  | cons a rest ih =>
    simp only [List.map_cons, List.nodup_cons] at hnd
    obtain ⟨hna, hnd'⟩ := hnd
    rcases List.mem_cons.mp hmem with h | h
    · subst h; simp [findSession]
    · have hne : ¬ a.id = s.id := by
        intro he
        apply hna
        rw [he]
        exact List.mem_map_of_mem Session.id h
      simp only [findSession, hne, if_false]
      exact ih hnd' h

lemma session_eq_of_id_nodup {l : List Session} {s s' : Session}
    (hnd : (l.map Session.id).Nodup) (hs : s ∈ l) (hs' : s' ∈ l)
    (hid : s.id = s'.id) : s = s' := by
  have h1 := findSession_of_mem_nodup hnd hs
  have h2 := findSession_of_mem_nodup hnd hs'
  rw [hid] at h1
  rw [h1] at h2
  exact Option.some.inj h2

lemma get_active_spec {db : SessionDB} {zone : String} {s : Session}
    (h : get_active_collection_session db zone = some s) :
    s ∈ db.sessions ∧ s.zone_id = zone ∧ s.status ≠ SessPhase.ended := by
  unfold get_active_collection_session at h
  have hmem := List.mem_of_find?_eq_some h
  have hp := List.find?_some h
  rw [List.mem_reverse] at hmem
  simp only [Bool.and_eq_true, decide_eq_true_eq, Bool.not_eq_true',
    decide_eq_false_iff_not] at hp
  exact ⟨hmem, hp.1, hp.2⟩

lemma ids_update (l : List Session) (now : Int) (sid : Nat) (st : SessPhase)
    (br bc : Option Nat) :
    ((l.map fun s => if s.id = sid then sessionRow now st br bc s else s).map Session.id) =
      l.map Session.id := by
  rw [List.map_map]
  apply List.map_congr_left
  intro s _
  by_cases h : s.id = sid <;> simp [Function.comp, h, sessionRow_id]

lemma update_status_invariant (db : SessionDB) (now : Int) (sid : Nat)
    (st : SessPhase) (br bc : Option Nat) (hwf : SessWF db) :
    SessWF (update_collection_session_status db now sid st br bc) := by
  obtain ⟨hnd, hbound⟩ := hwf
  constructor
  · show ((db.sessions.map fun s => if s.id = sid then sessionRow now st br bc s else s).map
      Session.id).Nodup
    rw [ids_update]
    exact hnd
  · intro s hsmem
    simp only [update_collection_session_status, List.mem_map] at hsmem
    obtain ⟨s0, hs0, heq⟩ := hsmem
    have hid : s.id = s0.id := by
      rw [← heq]
      by_cases h : s0.id = sid <;> simp [h, sessionRow_id]
    show s.id < db.next_id
    rw [hid]
    exact hbound s0 hs0

lemma ended_still_mem_update {db : SessionDB} {s : Session} (now : Int) (sid : Nat)
    (st : SessPhase) (br bc : Option Nat)
    (hs : s ∈ db.sessions) (hne : s.id ≠ sid) :
    s ∈ (update_collection_session_status db now sid st br bc).sessions := by
  unfold update_collection_session_status
  simp only [List.mem_map]
  exact ⟨s, hs, by simp [hne]⟩

lemma start_session_invariant (db : SessionDB) (now : Int) (zone : String)
    (total : Nat) (hwf : SessWF db) :
    SessWF (start_collection_session db now zone total)
    ∧ ∀ s ∈ db.sessions, s ∈ (start_collection_session db now zone total).sessions := by
  obtain ⟨hnd, hbound⟩ := hwf
  refine ⟨⟨?_, ?_⟩, ?_⟩
  · show ((db.sessions ++ [_]).map Session.id).Nodup
    rw [List.map_append]
    apply nodup_append_singleton _ _ hnd
    intro hmem
    simp only [List.mem_map] at hmem
    obtain ⟨s, hsmem, hsid⟩ := hmem
    have hlt := hbound s hsmem
    have hid : s.id = db.next_id := hsid
    omega
  · intro s hmem
    rcases List.mem_append.mp hmem with h | h
    · exact Nat.lt_succ_of_lt (hbound s h)
    · simp only [List.mem_singleton] at h
      rw [h]
      exact Nat.lt_succ_self _
  · intro s hs
    exact List.mem_append_left _ hs

lemma sessOp_invariant (db : SessionDB) (op : SessOp) {s : Session}
    (hwf : SessWF db) (hs : s ∈ db.sessions) (hend : s.status = SessPhase.ended) :
    SessWF (applySessOp db op) ∧ s ∈ (applySessOp db op).sessions := by
  have hactive_ne : ∀ {zone : String} {s' : Session},
      get_active_collection_session db zone = some s' → s.id ≠ s'.id := by
    intro zone s' hact he
    obtain ⟨hmem', _, hnotend'⟩ := get_active_spec hact
    have heqs := session_eq_of_id_nodup hwf.1 hs hmem' he
    rw [heqs] at hend
    exact hnotend' hend
  cases op with
  | start now zone hasBins total =>
    simp only [applySessOp, start_zone_collection]
    cases hact : get_active_collection_session db zone with
    | some s' => exact ⟨hwf, hs⟩
    | none =>
      cases hasBins with
      | false => exact ⟨hwf, hs⟩
      | true =>
        obtain ⟨hwf', hmono⟩ := start_session_invariant db now zone total hwf
        exact ⟨hwf', hmono s hs⟩
  | check now zone responded =>
    simp only [applySessOp, check_zone_collection]
    cases hact : get_active_collection_session db zone with
    | none => exact ⟨hwf, hs⟩
    | some s' =>
      exact ⟨update_status_invariant db now s'.id SessPhase.checked (some responded) none hwf,
             ended_still_mem_update now s'.id _ _ _ hs (hactive_ne hact)⟩
  | finish now zone responded collected =>
    simp only [applySessOp, finish_zone_collection]
    cases hact : get_active_collection_session db zone with
    | none => exact ⟨hwf, hs⟩
    | some s' =>
      exact ⟨update_status_invariant db now s'.id SessPhase.finished (some responded)
               (some collected) hwf,
             ended_still_mem_update now s'.id _ _ _ hs (hactive_ne hact)⟩
  | close now zone =>
    simp only [applySessOp, end_zone_collection]
    cases hact : get_active_collection_session db zone with
    | none => exact ⟨hwf, hs⟩
    | some s' =>
      exact ⟨update_status_invariant db now s'.id SessPhase.ended none none hwf,
             ended_still_mem_update now s'.id _ _ _ hs (hactive_ne hact)⟩

lemma sessOps_invariant (ops : List SessOp) (db : SessionDB) {s : Session}
    (hwf : SessWF db) (hs : s ∈ db.sessions) (hend : s.status = SessPhase.ended) :
    SessWF (applySessOps db ops) ∧ s ∈ (applySessOps db ops).sessions := by
  induction ops generalizing db with
  | nil => exact ⟨hwf, hs⟩
  | cons op rest ih =>
    obtain ⟨hwf', hs'⟩ := sessOp_invariant db op hwf hs hend
    exact ih (applySessOp db op) hwf' hs'

-- ──────────────────────────────────────────────────────────────────────────
-- C9
-- ──────────────────────────────────────────────────────────────────────────

/-- The empty session table. -/
def emptySessionDB : SessionDB := { sessions := [], next_id := 0 }

/-- Endpoint sequence start, check, finish for one zone. -/
def c9opsToFinished : List SessOp :=
  [SessOp.start 0 "z" true 5, SessOp.check 1 "z" 4, SessOp.finish 2 "z" 4 3]

/-- C9 counterexample: the session phase machine is not forward-only.
After start, check, finish the session is `finished`; one further call of
the check endpoint moves it back to `checked`, an earlier phase. -/
theorem finished_session_regresses_to_checked :
    (findSession (applySessOps emptySessionDB c9opsToFinished).sessions 0).map Session.status =
      some SessPhase.finished
    ∧ (findSession (applySessOps emptySessionDB
        (c9opsToFinished ++ [SessOp.check 3 "z" 4])).sessions 0).map Session.status =
      some SessPhase.checked
    ∧ phaseIdx SessPhase.checked < phaseIdx SessPhase.finished := by
  refine ⟨rfl, rfl, by decide⟩

/-- C9 (amended): the `ended` phase is terminal — once a session row is
`ended`, no sequence of the four collection endpoints modifies it in any
way — and while a zone has a non-`ended` session, the start endpoint is
rejected and creates no second session; among the non-`ended` phases,
however, the machine is not forward-only: the check endpoint sets the active
session back to `checked` even from `finished`. -/
theorem collection_session_ended_sticky (db : SessionDB) :
    (∀ s ∈ db.sessions, SessWF db → s.status = SessPhase.ended →
       ∀ ops : List SessOp, findSession (applySessOps db ops).sessions s.id = some s)
    ∧ (∀ (now : Int) (zone : String) (hasBins : Bool) (total : Nat) (s : Session),
       get_active_collection_session db zone = some s →
       start_zone_collection db now zone hasBins total = db) := by
  constructor
  · intro s hs hwf hend ops
    obtain ⟨hwf', hs'⟩ := sessOps_invariant ops db hwf hs hend
    exact findSession_of_mem_nodup hwf'.1 hs'
  · intro now zone hasBins total s hact
    unfold start_zone_collection
    rw [hact]

/-- Ended session row used by the C9 witness. -/
def c9ended : Session :=
  { id := 0, zone_id := "z1", status := SessPhase.ended, started_at := 0,
    checked_at := none, finished_at := none, ended_at := some 4,
    bins_total := 3, bins_responded := 2, bins_collected := 2 }

/-- Active session row used by the C9 witness. -/
def c9active : Session :=
  { id := 1, zone_id := "z2", status := SessPhase.started, started_at := 5,
    checked_at := none, finished_at := none, ended_at := none,
    bins_total := 4, bins_responded := 0, bins_collected := 0 }

/-- Session table with one ended and one active session. -/
def c9wdb : SessionDB := { sessions := [c9ended, c9active], next_id := 2 }

/-- C9 witness: on a concrete table, an ended session survives a check call
untouched, and a second start for a zone with an active session is a no-op. -/
theorem collection_session_ended_sticky_witness :
    findSession (applySessOps c9wdb [SessOp.check 9 "z2" 1]).sessions c9ended.id =
      some c9ended
    ∧ start_zone_collection c9wdb 9 "z2" true 4 = c9wdb :=
  ⟨(collection_session_ended_sticky c9wdb).1 c9ended (by decide)
     (⟨by decide, by decide⟩ : SessWF c9wdb) (by decide) [SessOp.check 9 "z2" 1],
   (collection_session_ended_sticky c9wdb).2 9 "z2" true 4 c9active (by decide)⟩

end CleanRoute
